import Mathlib

/-!
Verification of the inventory core of the Storen Stock Management System
(src/SSMS/src/pages/Inventory.jsx). The definitions below are shallow
embeddings of the client-side data logic: the adaptive image pipeline
(optimizeImage), name-based reference enrichment (fetchInventory), the
storage-row construction (addItem / saveEditedItem), pagination
(fetchInventory / totalPages / changePage), the debounced search effects,
and the numeric form coercions (handleInputChange / handleEditChange).
JS numbers are idealized as rationals (reals where Math.sqrt is involved);
nullable JS values are Options.
-/

namespace SSMS

/-! ### Image pipeline (Inventory.jsx lines 15-16, 185-246) -/

/-- `const MAX_FILE_SIZE = 100 * 1024` (line 15). -/
def MAX_FILE_SIZE : ℕ := 100 * 1024

/-- A browser File value: name, MIME type and content bytes.
`size` is the byte length, as in the File API. -/
structure JsFile where
  name : String
  mimeType : String
  bytes : List ℕ
  deriving DecidableEq

def JsFile.size (f : JsFile) : ℕ := f.bytes.length

/-- `const maxDimension = Math.sqrt((MAX_FILE_SIZE * 8) / 3) * 0.9` (line 210). -/
noncomputable def maxDimension : ℝ :=
  Real.sqrt (((MAX_FILE_SIZE : ℝ) * 8) / 3) * 0.9

/-- Lines 204-218 of optimizeImage: `aspectRatio = width / height`; if
`width > height` then `width = maxDimension; height = width / aspectRatio`
else `height = maxDimension; width = height * aspectRatio`. -/
noncomputable def resizeDims (width height : ℝ) : ℝ × ℝ :=
  if width > height then
    (maxDimension, maxDimension / (width / height))
  else
    (maxDimension * (width / height), maxDimension)

/-- `optimizeImage` (lines 185-246). The browser image decoder and the
canvas JPEG encoder are external collaborators, passed in as `decodeDims`
(pixel dimensions of the decoded file) and `toBlob` (canvas re-encoding at
quality 0.75, `none` when the canvas produces no blob). A file at or under
the byte budget is resolved unchanged; an over-budget file is resized via
`resizeDims` and re-encoded as image/jpeg under the same file name; a failed
re-encode rejects with the source's error message. -/
noncomputable def optimizeImage (decodeDims : JsFile → ℝ × ℝ)
    (toBlob : ℝ × ℝ → Option (List ℕ)) (f : JsFile) : Except String JsFile :=
  if f.size > MAX_FILE_SIZE then
    match toBlob (resizeDims (decodeDims f).1 (decodeDims f).2) with
    | some blob => .ok { name := f.name, mimeType := "image/jpeg", bytes := blob }
    | none => .error "Failed to optimize image"
  else
    .ok f

theorem maxDimension_pos : 0 < maxDimension := by
  unfold maxDimension
  have h : (0 : ℝ) < ((MAX_FILE_SIZE : ℝ) * 8) / 3 := by
    norm_num [MAX_FILE_SIZE]
  exact mul_pos (Real.sqrt_pos.mpr h) (by norm_num)

theorem hundred_lt_maxDimension : (100 : ℝ) < maxDimension := by
  unfold maxDimension
  have h : (1000 / 9 : ℝ) < Real.sqrt (((MAX_FILE_SIZE : ℝ) * 8) / 3) := by
    rw [Real.lt_sqrt (by norm_num)]
    norm_num [MAX_FILE_SIZE]
  nlinarith [h]

/-- Claim C1: a selected image file whose byte size is at most the 100KB
budget is returned by optimizeImage exactly as-is: the identity path, no
re-encoding, identical bytes. -/
theorem optimizeImage_identity_under_budget (decodeDims : JsFile → ℝ × ℝ)
    (toBlob : ℝ × ℝ → Option (List ℕ)) (f : JsFile)
    (h : f.size ≤ MAX_FILE_SIZE) :
    optimizeImage decodeDims toBlob f = .ok f := by
  unfold optimizeImage
  rw [if_neg (by omega)]

/-- Witness for C1 at a concrete 3-byte PNG. -/
theorem optimizeImage_identity_under_budget_witness :
    (JsFile.mk "a.png" "image/png" [1, 2, 3]).size ≤ MAX_FILE_SIZE ∧
    optimizeImage (fun _ => (0, 0)) (fun _ => none)
        (JsFile.mk "a.png" "image/png" [1, 2, 3]) =
      .ok (JsFile.mk "a.png" "image/png" [1, 2, 3]) :=
  ⟨by decide, optimizeImage_identity_under_budget _ _ _ (by decide)⟩

/-- Counterexample to claim C2: the resize step has no guard against
upscaling. An over-budget file decoded at 100x50 pixels (both dimensions
well below maxDimension, about 470.3) is scaled UP: both output dimensions
strictly exceed the input dimensions. -/
theorem resizeDims_upscales_small_image :
    100 < (resizeDims 100 50).1 ∧ 50 < (resizeDims 100 50).2 := by
  have hd : (100 : ℝ) < maxDimension := hundred_lt_maxDimension
  have h1 : resizeDims 100 50 = (maxDimension, maxDimension / ((100 : ℝ) / 50)) := by
    unfold resizeDims
    rw [if_pos (by norm_num)]
  rw [h1]
  refine ⟨hd, ?_⟩
  have h2 : ((100 : ℝ) / 50) = 2 := by norm_num
  rw [h2]
  linarith

/-- Claim C2 (amended): for an over-budget image, optimizeImage computes the
target dimension d = sqrt(MAX_FILE_SIZE * 8 / 3) * 0.9 and rescales so that
the larger of the two dimensions becomes exactly d, preserving the aspect
ratio; the scaling is applied unconditionally, so dimensions already below d
are scaled up to d (no never-upscale guard). -/
theorem resizeDims_spec (w h : ℝ) (hw : 0 < w) (hh : 0 < h) :
    maxDimension = Real.sqrt (((MAX_FILE_SIZE : ℝ) * 8) / 3) * 0.9 ∧
    max (resizeDims w h).1 (resizeDims w h).2 = maxDimension ∧
    (resizeDims w h).1 / (resizeDims w h).2 = w / h := by
  refine ⟨rfl, ?_, ?_⟩
  · unfold resizeDims
    by_cases hgt : w > h
    · rw [if_pos hgt]
      have hr1 : (1 : ℝ) ≤ w / h := (one_le_div hh).mpr (le_of_lt hgt)
      have : maxDimension / (w / h) ≤ maxDimension :=
        div_le_self (le_of_lt maxDimension_pos) hr1
      simpa using max_eq_left this
    · rw [if_neg hgt]
      push_neg at hgt
      have hr1 : w / h ≤ 1 := (div_le_one hh).mpr hgt
      have : maxDimension * (w / h) ≤ maxDimension :=
        mul_le_of_le_one_right (le_of_lt maxDimension_pos) hr1
      simpa using max_eq_right this
  · unfold resizeDims
    have hd : maxDimension ≠ 0 := ne_of_gt maxDimension_pos
    have hwh : w / h ≠ 0 := div_ne_zero (ne_of_gt hw) (ne_of_gt hh)
    by_cases hgt : w > h
    · rw [if_pos hgt]
      field_simp
      ring
    · rw [if_neg hgt]
      field_simp
      ring

/-- Witness for the amended C2 at a concrete 200x100 image. -/
theorem resizeDims_spec_witness :
    (0 : ℝ) < 200 ∧ (0 : ℝ) < 100 ∧
    (maxDimension = Real.sqrt (((MAX_FILE_SIZE : ℝ) * 8) / 3) * 0.9 ∧
     max (resizeDims 200 100).1 (resizeDims 200 100).2 = maxDimension ∧
     (resizeDims 200 100).1 / (resizeDims 200 100).2 = (200 : ℝ) / 100) :=
  ⟨by norm_num, by norm_num, resizeDims_spec 200 100 (by norm_num) (by norm_num)⟩

/-! ### Reference catalog and record enrichment (Inventory.jsx lines 117-143) -/

/-- A row of the category or warehouse table: server-assigned id and name. -/
structure RefEntry where
  id : ℕ
  name : String
  deriving DecidableEq

/-- A JS reference object as built by enrichment: both fields nullable
(the synthetic orphan form carries `id: null`). -/
structure RefObj where
  id : Option ℕ
  name : Option String
  deriving DecidableEq

/-- `categories.find(c => c.name === item.category)` (line 122). -/
def findByName (l : List RefEntry) (n : String) : Option RefEntry :=
  l.find? (fun c => c.name == n)

/-- `categories.find(c => c.id === parseInt(...))` (lines 339, 346, 443, 450). -/
def findById (l : List RefEntry) (i : ℕ) : Option RefEntry :=
  l.find? (fun c => c.id == i)

/-- Lines 121-128: `item.category ? (find ... || { id: null, name: item.category })
: null`, for one reference kind. A null stored name yields null; a stored name
with no catalog match yields the synthetic object carrying the orphaned name. -/
def enrichRef (l : List RefEntry) (nm : Option String) : Option RefObj :=
  match nm with
  | none => none
  | some n =>
    match findByName l n with
    | some c => some ⟨some c.id, some c.name⟩
    | none => some ⟨none, some n⟩

/-- JS `ref?.id || ''` (lines 135-136): the empty string (modeled none) when
the reference is null, its id is null, or its id is the falsy number 0. -/
def jsIdOrEmpty (r : Option RefObj) : Option ℕ :=
  match r with
  | some o =>
    match o.id with
    | some i => if i = 0 then none else some i
    | none => none
  | none => none

/-- A stored stock row: category/warehouse are nullable free-text names,
no foreign keys. -/
structure StockItem where
  id : ℕ
  name : String
  quantity : ℚ
  price : ℚ
  threshold : ℚ
  category : Option String
  warehouse : Option String
  thumbnail : Option String
  deriving DecidableEq

/-- The enriched in-memory record built by fetchInventory (lines 130-137):
the spread of the stored row with category/warehouse replaced by resolved
reference objects plus derived ids for form binding. -/
structure EnrichedItem where
  id : ℕ
  name : String
  quantity : ℚ
  price : ℚ
  threshold : ℚ
  thumbnail : Option String
  category : Option RefObj
  warehouse : Option RefObj
  category_id : Option ℕ
  warehouse_id : Option ℕ
  deriving DecidableEq

/-- The enrichment step of fetchInventory (lines 119-138). -/
def enrichItem (cats whs : List RefEntry) (it : StockItem) : EnrichedItem :=
  { id := it.id, name := it.name, quantity := it.quantity, price := it.price,
    threshold := it.threshold, thumbnail := it.thumbnail,
    category := enrichRef cats it.category,
    warehouse := enrichRef whs it.warehouse,
    category_id := jsIdOrEmpty (enrichRef cats it.category),
    warehouse_id := jsIdOrEmpty (enrichRef whs it.warehouse) }

/-- A stored stock row with a null category and warehouse. -/
def orphanRow : StockItem := ⟨1, "hammer", 2, 5, 1, none, none, none⟩

/-- Counterexample to claim C3: a row whose category name is absent (null) is
NOT enriched to the synthetic null-id object form; the enriched record
carries a plain null reference instead. -/
theorem enrich_null_name_not_synthetic :
    (enrichItem [] [] orphanRow).category = none ∧
    (enrichItem [] [] orphanRow).category ≠ some ⟨none, none⟩ := by
  decide

/-- Claim C3 (amended): enrichment never fails. A non-null category (or
warehouse) name that matches no catalog entry is enriched to the synthetic
object with a null id and the original name preserved; an absent (null)
name yields a null reference object (not the synthetic form). -/
theorem enrichItem_total_resolution (cats whs : List RefEntry) (it : StockItem) :
    (∀ n, it.category = some n → findByName cats n = none →
      (enrichItem cats whs it).category = some ⟨none, some n⟩) ∧
    (∀ n, it.warehouse = some n → findByName whs n = none →
      (enrichItem cats whs it).warehouse = some ⟨none, some n⟩) ∧
    (it.category = none → (enrichItem cats whs it).category = none) ∧
    (it.warehouse = none → (enrichItem cats whs it).warehouse = none) := by
  refine ⟨?_, ?_, ?_, ?_⟩
  · intro n h1 h2
    simp [enrichItem, enrichRef, h1, h2]
  · intro n h1 h2
    simp [enrichItem, enrichRef, h1, h2]
  · intro h1
    simp [enrichItem, enrichRef, h1]
  · intro h1
    simp [enrichItem, enrichRef, h1]

/-- A stored stock row referencing a category name with no catalog entry. -/
def ghostRow : StockItem := ⟨2, "wrench", 3, 7, 1, some "Ghost", none, none⟩

/-- Witness for the amended C3: the orphaned name Ghost is preserved under a
null id. -/
theorem enrichItem_total_resolution_witness :
    ghostRow.category = some "Ghost" ∧ findByName [] "Ghost" = none ∧
    (enrichItem [] [] ghostRow).category = some ⟨none, some "Ghost"⟩ :=
  ⟨rfl, rfl, (enrichItem_total_resolution [] [] ghostRow).1 "Ghost" rfl rfl⟩

/-! ### Storage-row construction (addItem lines 329-355, saveEditedItem lines 433-461) -/

/-- The edit form state (openEditModal, lines 394-407, sans id and file):
category_id and warehouse_id are the select-bound ids, none for the falsy
empty string. -/
structure EditForm where
  name : String
  category_id : Option ℕ
  quantity : ℚ
  price : ℚ
  threshold : ℚ
  warehouse_id : Option ℕ
  thumbnail : Option String
  deriving DecidableEq

/-- The row object written to the stock table (insertData / updateData):
a `none` category or warehouse means the key is absent from the object. -/
structure StorageRow where
  name : String
  quantity : ℚ
  price : ℚ
  threshold : ℚ
  thumbnail : Option String
  category : Option String
  warehouse : Option String
  deriving DecidableEq

/-- Lines 433-454 (and identically 329-350): base fields are copied; the
category key is written only when category_id is truthy AND resolves in the
catalog, in which case the resolved entry's NAME is written; same for the
warehouse. -/
def toStorageRow (cats whs : List RefEntry) (e : EditForm) : StorageRow :=
  { name := e.name, quantity := e.quantity, price := e.price,
    threshold := e.threshold, thumbnail := e.thumbnail,
    category :=
      match e.category_id with
      | none => none
      | some i =>
        match findById cats i with
        | some c => some c.name
        | none => none,
    warehouse :=
      match e.warehouse_id with
      | none => none
      | some i =>
        match findById whs i with
        | some c => some c.name
        | none => none }

/-- openEditModal (lines 394-407): the edit form is populated from the
enriched item's fields. -/
def toEditForm (e : EnrichedItem) : EditForm :=
  ⟨e.name, e.category_id, e.quantity, e.price, e.threshold, e.warehouse_id,
   e.thumbnail⟩

/-- The storage-relevant fields of a stored row, for stating the round trip
(the id is not part of insertData / updateData; updates target it via eq). -/
def storageFields (it : StockItem) : StorageRow :=
  ⟨it.name, it.quantity, it.price, it.threshold, it.thumbnail, it.category,
   it.warehouse⟩

/-- In a catalog whose ids are distinct (server-assigned primary keys),
lookup by id of a member entry finds exactly that entry. -/
theorem findById_eq_of_nodup {l : List RefEntry} {c : RefEntry}
    (hmem : c ∈ l) (hnd : (l.map RefEntry.id).Nodup) :
    findById l c.id = some c := by
  induction l with
  | nil => cases hmem
  | cons x xs ih =>
    simp only [List.map_cons, List.nodup_cons] at hnd
    by_cases hx : x.id = c.id
    · have hcx : c = x := by
        rcases List.mem_cons.mp hmem with h | h
        · exact h
        · exact absurd (hx ▸ List.mem_map_of_mem RefEntry.id h) hnd.1
      rw [hcx]
      simp [findById, List.find?_cons_of_pos, hx]
    · have hcm : c ∈ xs := by
        rcases List.mem_cons.mp hmem with h | h
        · exact absurd (h ▸ rfl) hx
        · exact h
      have := ih hcm hnd.2
      simpa [findById, List.find?_cons_of_neg, hx] using this

/-- Claim C4: round trip. For a stored row whose category and warehouse
names both resolve in the catalog (with distinct, nonzero server ids),
enriching the row, opening the edit form on it, and building the storage
row back reproduces the stored fields exactly, including the category and
warehouse name strings. -/
theorem roundtrip_enrich_toStorageRow (cats whs : List RefEntry)
    (it : StockItem) (cn wn : String) (c w : RefEntry)
    (hcat : it.category = some cn) (hwh : it.warehouse = some wn)
    (hfc : findByName cats cn = some c) (hfw : findByName whs wn = some w)
    (hc0 : c.id ≠ 0) (hw0 : w.id ≠ 0)
    (hndc : (cats.map RefEntry.id).Nodup) (hndw : (whs.map RefEntry.id).Nodup) :
    toStorageRow cats whs (toEditForm (enrichItem cats whs it)) =
      storageFields it := by
  have hcmem := List.mem_of_find?_eq_some hfc
  have hwmem := List.mem_of_find?_eq_some hfw
  have hcname : c.name = cn := by simpa [findByName] using List.find?_some hfc
  have hwname : w.name = wn := by simpa [findByName] using List.find?_some hfw
  have h1 := findById_eq_of_nodup hcmem hndc
  have h2 := findById_eq_of_nodup hwmem hndw
  simp [toStorageRow, toEditForm, enrichItem, enrichRef, storageFields,
        hcat, hwh, hfc, hfw, jsIdOrEmpty, hc0, hw0, h1, h2, hcname, hwname]

/-- A stored row whose references resolve in the one-entry catalogs below. -/
def resolvedRow : StockItem :=
  ⟨5, "drill", 2, 9, 1, some "Tools", some "Main", some "u"⟩

/-- Witness for C4 at a concrete row and catalogs. -/
theorem roundtrip_enrich_toStorageRow_witness :
    resolvedRow.category = some "Tools" ∧ resolvedRow.warehouse = some "Main" ∧
    findByName [⟨1, "Tools"⟩] "Tools" = some ⟨1, "Tools"⟩ ∧
    findByName [⟨2, "Main"⟩] "Main" = some ⟨2, "Main"⟩ ∧
    toStorageRow [⟨1, "Tools"⟩] [⟨2, "Main"⟩]
        (toEditForm (enrichItem [⟨1, "Tools"⟩] [⟨2, "Main"⟩] resolvedRow)) =
      storageFields resolvedRow :=
  ⟨rfl, rfl, by decide, by decide,
   roundtrip_enrich_toStorageRow [⟨1, "Tools"⟩] [⟨2, "Main"⟩] resolvedRow
     "Tools" "Main" ⟨1, "Tools"⟩ ⟨2, "Main"⟩ rfl rfl (by decide) (by decide)
     (by decide) (by decide) (by decide) (by decide)⟩

/-- Claim C5: a set category_id (or warehouse_id) that resolves to no
catalog entry makes the written row omit the category (or warehouse) key
entirely, whatever the form's other fields hold; a resolving id writes the
resolved entry's name string into the row. -/
theorem toStorageRow_unresolved_id_drops_field (cats whs : List RefEntry)
    (e : EditForm) :
    (∀ i, e.category_id = some i → findById cats i = none →
      (toStorageRow cats whs e).category = none) ∧
    (∀ i c, e.category_id = some i → findById cats i = some c →
      (toStorageRow cats whs e).category = some c.name) ∧
    (∀ i, e.warehouse_id = some i → findById whs i = none →
      (toStorageRow cats whs e).warehouse = none) ∧
    (∀ i c, e.warehouse_id = some i → findById whs i = some c →
      (toStorageRow cats whs e).warehouse = some c.name) := by
  refine ⟨?_, ?_, ?_, ?_⟩
  · intro i h1 h2
    simp [toStorageRow, h1, h2]
  · intro i c h1 h2
    simp [toStorageRow, h1, h2]
  · intro i h1 h2
    simp [toStorageRow, h1, h2]
  · intro i c h1 h2
    simp [toStorageRow, h1, h2]

/-- An edit form holding a category_id that no catalog entry carries. -/
def staleForm : EditForm := ⟨"saw", some 7, 1, 4, 1, none, some "t"⟩

/-- Witness for C5: id 7 resolves in no (empty) catalog, so the written row
has no category key. -/
theorem toStorageRow_unresolved_id_drops_field_witness :
    staleForm.category_id = some 7 ∧ findById [] 7 = none ∧
    (toStorageRow [] [] staleForm).category = none :=
  ⟨rfl, rfl, (toStorageRow_unresolved_id_drops_field [] [] staleForm).1 7 rfl rfl⟩

/-! ### Pagination (Inventory.jsx lines 105-115, 551) -/

/-- `const [itemsPerPage] = useState(10)` (line 27). -/
def itemsPerPage : ℕ := 10

/-- `const from = (currentPage - 1) * itemsPerPage` (line 106). -/
def fetchFrom (page pageSize : ℕ) : ℕ := (page - 1) * pageSize

/-- `const to = from + itemsPerPage - 1` (line 107). -/
def fetchTo (page pageSize : ℕ) : ℕ := fetchFrom page pageSize + pageSize - 1

/-- `const totalPages = Math.ceil(totalItems / itemsPerPage)` (line 551). -/
def totalPages (totalItems pageSize : ℕ) : ℕ :=
  (⌈(totalItems : ℚ) / (pageSize : ℚ)⌉).toNat

/-- Model of the remote ranged read on the filtered, name-ordered rows:
`.range(lo, hi)` returns the inclusive offset window (external table
service, spec section 6); an out-of-range window is empty, not an error. -/
def selectRange (rows : List StockItem) (lo hi : ℕ) : List StockItem :=
  (rows.drop lo).take (hi - lo + 1)

/-- The fetchInventory read (lines 105-115): the requested page window over
the filtered rows, together with the exact filtered count. -/
def fetchPage (rows : List StockItem) (page pageSize : ℕ) :
    List StockItem × ℕ :=
  (selectRange rows (fetchFrom page pageSize) (fetchTo page pageSize),
   rows.length)

/-- Math.ceil of the rational division agrees with natural ceiling
division. -/
theorem totalPages_eq_ceilDiv (n s : ℕ) (hs : 0 < s) :
    totalPages n s = (n + s - 1) / s := by
  unfold totalPages
  have hs0 : (0 : ℚ) < (s : ℚ) := by exact_mod_cast hs
  cases n with
  | zero =>
    simp [Nat.div_eq_of_lt (show s - 1 < s by omega)]
  | succ m =>
    have harg : m + 1 + s - 1 = m + s := by omega
    rw [harg]
    have hdm := Nat.div_add_mod (m + s) s
    have hmod : (m + s) % s < s := Nat.mod_lt _ hs
    set q := (m + s) / s with hqdef
    set t := s * q with htdef
    have h1 : m + 1 ≤ t := by omega
    have h2 : t ≤ m + s := by omega
    have htq : (t : ℚ) = (s : ℚ) * (q : ℚ) := by rw [htdef]; push_cast; ring
    have h1q : ((m : ℚ) + 1) ≤ (t : ℚ) := by exact_mod_cast h1
    have h2q : (t : ℚ) ≤ (m : ℚ) + s := by exact_mod_cast h2
    have hkey : ⌈((m + 1 : ℕ) : ℚ) / (s : ℚ)⌉ = (q : ℤ) := by
      rw [Int.ceil_eq_iff]
      constructor
      · rw [lt_div_iff₀ hs0]
        push_cast
        nlinarith [htq, h2q]
      · rw [div_le_iff₀ hs0]
        push_cast
        nlinarith [htq, h1q]
    rw [hkey]
    exact Int.toNat_natCast _

/-- Claim C6: for page p >= 1 and page size s >= 1 the fetch requests the
inclusive offset window [(p-1)*s, p*s - 1]; total pages is the ceiling of
totalCount / pageSize; and requesting a page past the last valid page
yields an empty item list while the count still reflects the filtered row
count. -/
theorem fetchInventory_pagination (rows : List StockItem) (p s : ℕ)
    (hp : 1 ≤ p) (hs : 1 ≤ s) :
    fetchFrom p s = (p - 1) * s ∧
    fetchTo p s = p * s - 1 ∧
    totalPages rows.length s = (rows.length + s - 1) / s ∧
    (totalPages rows.length s < p →
      (fetchPage rows p s).1 = [] ∧ (fetchPage rows p s).2 = rows.length) := by
  have hmul : (p - 1) * s + s = p * s := by
    cases p with
    | zero => omega
    | succ k => simp [Nat.succ_sub_one, Nat.succ_mul]
  refine ⟨rfl, ?_, totalPages_eq_ceilDiv _ _ hs, ?_⟩
  · unfold fetchTo fetchFrom
    rw [← hmul]
  · intro hpast
    rw [totalPages_eq_ceilDiv _ _ hs] at hpast
    have hdm := Nat.div_add_mod (rows.length + s - 1) s
    have hmod : (rows.length + s - 1) % s < s := Nat.mod_lt _ hs
    set q := (rows.length + s - 1) / s with hqdef
    set t := s * q with htdef
    have hnt : rows.length ≤ t := by omega
    have hqp : q ≤ p - 1 := by omega
    have hdrop : rows.length ≤ fetchFrom p s := by
      unfold fetchFrom
      calc rows.length ≤ t := hnt
        _ = s * q := htdef
        _ ≤ s * (p - 1) := mul_le_mul_left' hqp s
        _ = (p - 1) * s := Nat.mul_comm _ _
    constructor
    · show selectRange rows (fetchFrom p s) (fetchTo p s) = []
      unfold selectRange
      rw [List.drop_eq_nil_of_le hdrop]
      simp
    · rfl

/-- A concrete three-row table for the pagination witness. -/
def rows3 : List StockItem :=
  [⟨1, "a", 1, 1, 1, none, none, none⟩,
   ⟨2, "b", 1, 1, 1, none, none, none⟩,
   ⟨3, "c", 1, 1, 1, none, none, none⟩]

/-- Witness for C6: with 3 rows and page size 10, page 5 is past the single
valid page: the item list is empty and the count is still 3. -/
theorem fetchInventory_pagination_witness :
    totalPages rows3.length 10 < 5 ∧
    (fetchPage rows3 5 10).1 = [] ∧ (fetchPage rows3 5 10).2 = 3 := by
  have h := (fetchInventory_pagination rows3 5 10 (by decide) (by decide)).2.2.2
  have hlt : totalPages rows3.length 10 < 5 := by
    rw [show rows3.length = 3 from rfl, totalPages_eq_ceilDiv 3 10 (by decide)]
    decide
  exact ⟨hlt, (h hlt).1, (h hlt).2⟩

/-! ### Search effects and debounce timing (Inventory.jsx lines 71-80, 564-571) -/

/-- The 500ms quiet period of the delaySearch effect (line 568). -/
def debounceDelay : ℕ := 500

/-- One fetchInventory call: when it runs, and whether it came from the
debounce timer (true) or directly from the loadData effect (false). -/
structure FetchEv where
  time : ℕ
  debounced : Bool
  deriving DecidableEq

/-- Discrete-event model of the two effects that react to a search
keystroke, over an ascending list of keystroke times. A keystroke at time t
re-runs BOTH effects: the loadData effect (its dependency array includes
searchTerm, line 80) calls fetchInventory immediately, and the delaySearch
effect (lines 565-571) clears the pending timer in its cleanup and
schedules a new fetchInventory at t + 500. A pending timer whose deadline
has already passed when the next keystroke arrives has fired (clearTimeout
of an elapsed timer is a no-op); after the last keystroke the pending timer
fires. -/
def searchFetchesAux : Option ℕ → List ℕ → List FetchEv
  | pending, [] =>
    match pending with
    | some ft => [⟨ft, true⟩]
    | none => []
  | pending, t :: rest =>
    match pending with
    | some ft =>
      if ft ≤ t then
        ⟨ft, true⟩ :: ⟨t, false⟩ :: searchFetchesAux (some (t + debounceDelay)) rest
      else
        ⟨t, false⟩ :: searchFetchesAux (some (t + debounceDelay)) rest
    | none => ⟨t, false⟩ :: searchFetchesAux (some (t + debounceDelay)) rest

/-- All fetchInventory calls caused by a keystroke sequence (starting with
no pending timer). -/
def searchFetches (keystrokes : List ℕ) : List FetchEv :=
  searchFetchesAux none keystrokes

/-- Claim C7 (code bug): five keystrokes 100ms apart cause SIX inventory
refetches, not exactly one — each keystroke fires an immediate refetch
through the loadData effect (searchTerm is in its dependency array), and
the debounce timer adds one more 500ms after the last keystroke. Only the
debounced refetch obeys the cancel-and-reschedule contract. -/
theorem five_keystrokes_six_fetches :
    searchFetches [0, 100, 200, 300, 400] =
      [⟨0, false⟩, ⟨100, false⟩, ⟨200, false⟩, ⟨300, false⟩,
       ⟨400, false⟩, ⟨900, true⟩] ∧
    (searchFetches [0, 100, 200, 300, 400]).length ≠ 1 ∧
    ((searchFetches [0, 100, 200, 300, 400]).filter
        (fun e => e.debounced)) = [⟨900, true⟩] := by
  decide

/-! ### Numeric form coercion (Inventory.jsx lines 383-391, 410-418) -/

/-- Numeric value of a decimal digit character, none for non-digits. -/
def digitVal (c : Char) : Option ℕ :=
  if c.isDigit then some (c.toNat - 48) else none

/-- Longest digit prefix of a character list, together with the rest. -/
def takeDigits : List Char → List ℕ × List Char
  | [] => ([], [])
  | c :: cs =>
    match digitVal c with
    | some d =>
      let p := takeDigits cs
      (d :: p.1, p.2)
    | none => ([], c :: cs)

/-- Integer value of a digit list read left to right. -/
def natOfDigits (ds : List ℕ) : ℕ := ds.foldl (fun a d => a * 10 + d) 0

/-- Fractional value of the digit list after the decimal point. -/
def fracOfDigits (ds : List ℕ) : ℚ := ds.foldr (fun d a => ((d : ℚ) + a) / 10) 0

/-- The sign and the integer and fraction digit lists of the longest
decimal-literal prefix of the input; none when no digit is present (the
parse is NaN). -/
def parsePieces (s : String) : Option (ℤ × List ℕ × List ℕ) :=
  let signed : ℤ × List Char :=
    match s.data with
    | '-' :: rest => (-1, rest)
    | '+' :: rest => (1, rest)
    | cs => (1, cs)
  let intPart := takeDigits signed.2
  let fracPart :=
    match intPart.2 with
    | '.' :: rest2 => (takeDigits rest2).1
    | _ => []
  if intPart.1 = [] ∧ fracPart = [] then none
  else some (signed.1, intPart.1, fracPart)

/-- Model of JS parseFloat on a form input string: an optional sign followed
by the longest decimal-literal prefix; none models NaN (no parsable prefix).
Exponent suffixes and leading whitespace are not modeled: the inputs in
scope are number-field strings. -/
def jsParseFloat (s : String) : Option ℚ :=
  (parsePieces s).map
    (fun p => (p.1 : ℚ) * ((natOfDigits p.2.1 : ℚ) + fracOfDigits p.2.2))

/-- JS `x || 0` applied to a parse result: NaN (none) and 0 are falsy. -/
def jsOrZero (x : Option ℚ) : ℚ :=
  match x with
  | none => 0
  | some q => if q = 0 then 0 else q

/-- handleEditChange (lines 410-418): quantity, price and threshold fields
get `parseFloat(value) || 0`; every other field gets the raw value (the
name field stands for the raw-string branch; id-select fields are bound at
the form boundary). -/
def handleEditChange (it : EditForm) (field value : String) : EditForm :=
  if field = "quantity" then { it with quantity := jsOrZero (jsParseFloat value) }
  else if field = "price" then { it with price := jsOrZero (jsParseFloat value) }
  else if field = "threshold" then { it with threshold := jsOrZero (jsParseFloat value) }
  else if field = "name" then { it with name := value }
  else it

/-- handleInputChange (lines 383-391): the identical update rule on the
new-item form. -/
def handleInputChange (it : EditForm) (field value : String) : EditForm :=
  if field = "quantity" then { it with quantity := jsOrZero (jsParseFloat value) }
  else if field = "price" then { it with price := jsOrZero (jsParseFloat value) }
  else if field = "threshold" then { it with threshold := jsOrZero (jsParseFloat value) }
  else if field = "name" then { it with name := value }
  else it

/-- Claim C8: a numeric form field stores the floating-point parse of the
input, a failed parse (non-numeric input) coerces to 0, and the update is
total — the save never fails on a non-numeric numeric field. -/
theorem numeric_coercion (it : EditForm) (v : String) :
    (jsParseFloat v = none →
      (handleEditChange it "quantity" v).quantity = 0 ∧
      (handleEditChange it "price" v).price = 0 ∧
      (handleEditChange it "threshold" v).threshold = 0 ∧
      (handleInputChange it "quantity" v).quantity = 0) ∧
    (∀ q, jsParseFloat v = some q →
      (handleEditChange it "quantity" v).quantity = q ∧
      (handleEditChange it "price" v).price = q ∧
      (handleEditChange it "threshold" v).threshold = q ∧
      (handleInputChange it "quantity" v).quantity = q) := by
  constructor
  · intro h
    refine ⟨?_, ?_, ?_, ?_⟩ <;> simp [handleEditChange, handleInputChange, jsOrZero, h]
  · intro q h
    by_cases hq : q = 0 <;>
      refine ⟨?_, ?_, ?_, ?_⟩ <;>
        simp [handleEditChange, handleInputChange, jsOrZero, h, hq]

/-- Witness for C8 at two concrete inputs: non-numeric text coerces to 0
and a decimal literal parses to its value. -/
theorem numeric_coercion_witness :
    jsParseFloat "abc" = none ∧
    (handleEditChange ⟨"x", none, 1, 1, 1, none, none⟩ "quantity" "abc").quantity = 0 ∧
    jsParseFloat "3.5" = some (7 / 2) ∧
    (handleEditChange ⟨"x", none, 1, 1, 1, none, none⟩ "price" "3.5").price = 7 / 2 := by
  have habc : jsParseFloat "abc" = none := by
    have h : parsePieces "abc" = none := by decide
    simp [jsParseFloat, h]
  have h35 : jsParseFloat "3.5" = some (7 / 2) := by
    have h : parsePieces "3.5" = some (1, [3], [5]) := by decide
    simp [jsParseFloat, h, natOfDigits, fracOfDigits]
    norm_num
  exact ⟨habc, ((numeric_coercion ⟨"x", none, 1, 1, 1, none, none⟩ "abc").1 habc).1,
         h35,
         (((numeric_coercion ⟨"x", none, 1, 1, 1, none, none⟩ "3.5").2 (7 / 2)) h35).2.1⟩

/-! ### Stock status badge (Inventory.jsx lines 841-851) -/

/-- `item.quantity <= item.threshold ? "Low Stock" : "In Stock"` (line 842). -/
def stockStatus (quantity threshold : ℚ) : String :=
  if quantity ≤ threshold then "Low Stock" else "In Stock"

/-- Claim C9: the badge reads Low Stock exactly when quantity <= threshold
and In Stock otherwise; quantity 5 with threshold 10 is Low Stock, 11 with
10 is In Stock, and equality lands on Low Stock. -/
theorem stockStatus_spec :
    stockStatus 5 10 = "Low Stock" ∧
    stockStatus 11 10 = "In Stock" ∧
    (∀ t : ℚ, stockStatus t t = "Low Stock") ∧
    (∀ q t : ℚ, (stockStatus q t = "Low Stock" ↔ q ≤ t) ∧
                (stockStatus q t = "In Stock" ↔ t < q)) := by
  refine ⟨by norm_num [stockStatus], by norm_num [stockStatus],
          fun t => by simp [stockStatus], fun q t => ?_⟩
  by_cases h : q ≤ t
  · simp only [stockStatus, if_pos h]
    refine ⟨by simp [h], ?_⟩
    constructor
    · intro hs
      exact absurd hs (by decide)
    · intro hlt
      exact absurd h (not_le.mpr hlt)
  · simp only [stockStatus, if_neg h]
    refine ⟨?_, by simp [not_le.mp h]⟩
    constructor
    · intro hs
      exact absurd hs (by decide)
    · intro hle
      exact absurd hle h

/-- Witness for C9: quantity 3 against threshold 4 is Low Stock, via the
general rule. -/
theorem stockStatus_spec_witness : stockStatus 3 4 = "Low Stock" :=
  ((stockStatus_spec.2.2.2 3 4).1).mpr (by norm_num)

/-! ### Filter and page state (Inventory.jsx lines 553-562, 606-636) -/

/-- The query state held by the component: current page, search term, both
filters, and the total row count the page derives totalPages from. -/
structure PageState where
  currentPage : ℕ
  searchTerm : String
  filterCategory : String
  filterWarehouse : String
  totalItems : ℕ
  deriving DecidableEq

/-- The user actions that touch the query state. -/
inductive UIAction where
  | searchChange (v : String)
  | categoryFilterChange (v : String)
  | warehouseFilterChange (v : String)
  | changePage (n : ℕ)
  deriving DecidableEq

/-- The state updates: handleSearchChange (lines 559-562) and both filter
select handlers (lines 608-611, 625-628) set the new value AND reset
currentPage to 1; changePage (lines 553-556) ignores a page outside
[1, totalPages] and otherwise sets it. -/
def step (s : PageState) : UIAction → PageState
  | .searchChange v => { s with searchTerm := v, currentPage := 1 }
  | .categoryFilterChange v => { s with filterCategory := v, currentPage := 1 }
  | .warehouseFilterChange v => { s with filterWarehouse := v, currentPage := 1 }
  | .changePage n =>
    if n < 1 ∨ totalPages s.totalItems itemsPerPage < n then s
    else { s with currentPage := n }

/-- Claim C10: every search or filter change resets the current page to 1,
and a changePage action that actually moves the page only does so for an
in-range target 1 <= n <= totalPages, landing exactly on n — so after any
filter-changing action the next fetch sees currentPage = 1, and only an
explicit in-range page change moves it away. -/
theorem filter_resets_page (s : PageState) :
    (∀ v, (step s (.searchChange v)).currentPage = 1) ∧
    (∀ v, (step s (.categoryFilterChange v)).currentPage = 1) ∧
    (∀ v, (step s (.warehouseFilterChange v)).currentPage = 1) ∧
    (∀ n, (step s (.changePage n)).currentPage ≠ s.currentPage →
      1 ≤ n ∧ n ≤ totalPages s.totalItems itemsPerPage ∧
      (step s (.changePage n)).currentPage = n) := by
  refine ⟨fun v => rfl, fun v => rfl, fun v => rfl, fun n hmoved => ?_⟩
  by_cases hguard : n < 1 ∨ totalPages s.totalItems itemsPerPage < n
  · have hstep : step s (.changePage n) = s := by
      simp only [step]
      rw [if_pos hguard]
    rw [hstep] at hmoved
    exact absurd rfl hmoved
  · push_neg at hguard
    have hstep : (step s (.changePage n)).currentPage = n := by
      simp only [step]
      rw [if_neg (by push_neg; exact hguard)]
    exact ⟨hguard.1, hguard.2, hstep⟩

/-- A concrete state on page 1 of a 30-row result set. -/
def state30 : PageState := ⟨1, "", "", "", 30⟩

/-- Witness for C10: moving from page 1 to page 2 of 3 goes through the
in-range branch of changePage. -/
theorem filter_resets_page_witness :
    1 ≤ 2 ∧ 2 ≤ totalPages state30.totalItems itemsPerPage ∧
    (step state30 (.changePage 2)).currentPage = 2 :=
  (filter_resets_page state30).2.2.2 2 (by
    have h3 : totalPages state30.totalItems itemsPerPage = 3 := by
      rw [show state30.totalItems = 30 from rfl,
          show itemsPerPage = 10 from rfl,
          totalPages_eq_ceilDiv 30 10 (by decide)]
    have hstep : (step state30 (.changePage 2)).currentPage = 2 := by
      simp only [step]
      rw [if_neg (by rw [h3]; decide)]
    rw [hstep]
    decide)

end SSMS
